import Mathlib

/-!
Verification of the natural-language specification of the `download-wheels`
repository against a shallow embedding of its two Python scripts,
`create_mirror.py` (mirror builder) and `download_wheels.py` (parallel
downloader).  Pure string manipulation is translated into executable Lean
functions on `List Char` / `String`; the filesystem and subprocess effects are
made explicit: the mirror builder produces a trace of filesystem operations,
and the downloader is parameterised by an environment supplying the result of
each `os.listdir` call and the outcome of each external `pip download`
invocation, and produces a trace of events (directory reads, skips,
invocations, warnings).
-/

/-! ## String utilities (models of the Python string operations used) -/

/-- Model of Python `str.lower()` restricted to ASCII letters, applied
characterwise (the repository only handles ASCII file and package names). -/
def lowerList (l : List Char) : List Char := l.map Char.toLower

/-- Lowercase a string, model of `s.lower()`. -/
def lowerStr (s : String) : String := String.mk (lowerList s.toList)

/-- Whitespace characters stripped by Python `str.strip()` (ASCII subset). -/
def isWsChar (c : Char) : Bool :=
  c.toNat = 32 || c.toNat = 9 || c.toNat = 10 || c.toNat = 13 || c.toNat = 11 || c.toNat = 12

/-- Model of Python `str.strip()` on the character list. -/
def stripList (l : List Char) : List Char :=
  ((l.dropWhile isWsChar).reverse.dropWhile isWsChar).reverse

/-- Model of Python `str.strip()`. -/
def stripStr (s : String) : String := String.mk (stripList s.toList)

/-- Model of Python `s.endswith(suffix)`. -/
def strEndsWith (s sfx : String) : Bool := sfx.toList.isSuffixOf s.toList

/-- Model of the Python substring test `pat in s` on character lists. -/
def listContains (pat : List Char) : List Char → Bool
  | [] => pat.isEmpty
  | c :: rest => pat.isPrefixOf (c :: rest) || listContains pat rest

/-- Replace underscores by hyphens after lowercasing: the common tail of both
normalisations in the repository, `.lower().replace(UNDERSCORE, HYPHEN)`. -/
def pyNormalizeTail (l : List Char) : List Char :=
  (lowerList l).map (fun c => if c = '_' then '-' else c)

/-! ## Mirror builder (`create_mirror.py`) -/

/-- Part of `create_mirror.py` line 31: the prefix of the filename before the
first hyphen that is immediately followed by a digit, i.e.
`re.split(r..., filename, 1)[0]` for the pattern hyphen-followed-by-digit. -/
def nameBeforeDashDigit : List Char → List Char
  | [] => []
  | [c] => [c]
  | c :: d :: rest =>
    if c = '-' && d.isDigit then []
    else c :: nameBeforeDashDigit (d :: rest)

/-- `create_mirror.py` line 31: the normalised package name of an archive
filename (prefix before the first hyphen-digit, lowercased, underscores
replaced by hyphens). -/
def normalizeMirror (fn : String) : String :=
  String.mk (pyNormalizeTail (nameBeforeDashDigit fn.toList))

/-- `create_mirror.py` line 28: `filename.endswith((WHL, TARGZ))`. -/
def isArchive (fn : String) : Bool :=
  strEndsWith fn ".whl" || strEndsWith fn ".tar.gz"

/-- `packages[package_name].append(filename)` on an insertion-ordered
association list, modelling `defaultdict(list)` with Python dict insertion
order. -/
def addToGroups : List (String × List String) → String → String → List (String × List String)
  | [], key, fn => [(key, [fn])]
  | g :: rest, key, fn =>
    if g.1 = key then (g.1, g.2 ++ [fn]) :: rest
    else g :: addToGroups rest key fn

/-- `create_mirror.py` lines 26-32: group the archive files of the source
listing by normalised package name, preserving first-encounter key order and
per-key file order. -/
def groupPackages (listing : List String) : List (String × List String) :=
  listing.foldl
    (fun gs fn => if isArchive fn then addToGroups gs (normalizeMirror fn) fn else gs) []

/-- Lookup of a package name in the grouped association list. -/
def lookupGO : List (String × List String) → String → Option (List String)
  | [], _ => none
  | g :: rest, k => if g.1 = k then some g.2 else lookupGO rest k

/-- The files of `listing` that are archives of normalised name `k`. -/
def archFilter (listing : List String) (k : String) : List String :=
  listing.filter (fun fn => isArchive fn && decide (normalizeMirror fn = k))

/-- Model of Python `sorted` on filenames: lexicographic (code-point) order,
which is the `LinearOrder` on `String`. -/
def sortStrings (l : List String) : List String :=
  List.insertionSort (fun a b => a ≤ b) l

/-- One `<a>` line of the generated index, `create_mirror.py` line 48. -/
def linkLine (fn : String) : String :=
  "  <a href=\"" ++ fn ++ "\">" ++ fn ++ "</a><br />\n"

/-- `create_mirror.py` lines 40-49: the full byte content written to the
`index.html` of one package (files are sorted before being linked). -/
def indexHtml (packageName : String) (files : List String) : String :=
  "<!DOCTYPE html>\n" ++
  "<html>\n<head><title>Links for " ++ packageName ++ "</title></head>\n" ++
  "<body>\n<h1>Links for " ++ packageName ++ "</h1>\n" ++
  String.join ((sortStrings files).map linkLine) ++
  "</body>\n</html>\n"

/-- Filesystem effects of the mirror builder. -/
inductive MirrorOp where
  | mkdir (path : List String)
  | copyFile (srcName : String) (pkg : String)
  | writeIndex (pkg : String) (content : String)
  | message (msg : String)
deriving DecidableEq

/-- `create_simple_repository` in `create_mirror.py` as a trace of filesystem
operations: `sourceIsDir` is the result of `os.path.isdir(SOURCE_DIR)` and
`listing` the result of `os.listdir(SOURCE_DIR)`.  When the source directory is
missing only an error message is printed (line 16-18 early return); otherwise
the `simple` tree is created, and for each package its directory, the copies of
its (sorted) files and its `index.html` are produced. -/
def createSimpleRepository (sourceIsDir : Bool) (listing : List String) : List MirrorOp :=
  if sourceIsDir then
    [MirrorOp.mkdir ["mirror", "simple"],
     MirrorOp.message "Creating mirror structure in: mirror/simple"] ++
    (groupPackages listing).flatMap (fun g =>
      MirrorOp.mkdir ["mirror", "simple", g.1] ::
      ((sortStrings g.2).map (fun fn => MirrorOp.copyFile fn g.1) ++
       [MirrorOp.writeIndex g.1 (indexHtml g.1 g.2),
        MirrorOp.message ("- Created index for " ++ g.1)])) ++
    [MirrorOp.message "Mirror structure created successfully."]
  else
    [MirrorOp.message "Error: Source directory not found."]

/-- Whether a mirror operation is a pure console message (no filesystem
mutation). -/
def isMessageOp : MirrorOp → Bool
  | MirrorOp.message _ => true
  | _ => false

/-! ## Parallel downloader (`download_wheels.py`) -/

/-- `download_wheels.py` lines 24-45: the configured target platforms as
(display name, platform tag) pairs. -/
def TARGET_PLATFORMS : List (String × String) :=
  [("Windows (64-bit)", "win_amd64"),
   ("Windows (32-bit)", "win32"),
   ("Linux (64-bit, x86_64)", "manylinux2014_x86_64"),
   ("Linux (32-bit, i686)", "manylinux2014_i686"),
   ("Linux (ARM 64-bit, aarch64)", "manylinux2014_aarch64")]

/-- `download_wheels.py` line 93, first half: the prefix of the requirement
specifier before the first version/comparison operator character,
`re.split` at any of the five operator characters, component `[0]`. -/
def reqNameHead : List Char → List Char
  | [] => []
  | c :: rest =>
    if c = '=' || c = '<' || c = '>' || c = '~' || c = '!' then []
    else c :: reqNameHead rest

/-- `download_wheels.py` line 93: the normalised package name of a requirement
line (name part, lowercased, underscores replaced by hyphens). -/
def normalizeReq (req : String) : String :=
  String.mk (pyNormalizeTail (reqNameHead req.toList))

/-- `download_wheels.py` lines 94-97: whether some already-downloaded file has
the package name as a lowercase prefix and contains the platform tag,
`any(f.lower().startswith(package_name) and platform_tag in f.lower() ...)`. -/
def isDownloaded (packageName platformTag : String) (files : List String) : Bool :=
  files.any (fun f =>
    packageName.toList.isPrefixOf (lowerList f.toList) &&
    listContains platformTag.toList (lowerList f.toList))

/-- The specific pip error text tested at `download_wheels.py` line 124. -/
def noBinaryPattern : String := "Could not find a version that satisfies the requirement"

/-- `download_wheels.py` line 124: substring test of the known
no-compatible-binary signature against the stripped error output. -/
def matchesNoBinary (errorOutput : String) : Bool :=
  listContains noBinaryPattern.toList errorOutput.toList

/-- Result of one external `pip download` invocation: success, or failure with
the raw standard-error text. -/
inductive DownloadOutcome where
  | ok
  | fail (stderr : String)
deriving DecidableEq

/-- Environment of one worker task: `listings k` is the result of the `k`-th
`os.listdir(output_directory)` call made inside the task, and `outcome tag`
the result of the `pip download` invocation for that platform tag. -/
structure TaskEnv where
  listings : Nat → List String
  outcome : String → DownloadOutcome

/-- Observable events of the downloader: a directory listing read, a skip of
an already-downloaded (requirement, platform) pair, an external download
invocation, and a no-binary warning. -/
inductive Ev where
  | listdir (k : Nat)
  | skip (req tag : String)
  | invoke (req tag : String)
  | warn (req tag : String)
deriving DecidableEq

/-- The platform loop of `process_single_requirement` (`download_wheels.py`
lines 80-132): for each platform, one fresh `os.listdir` (line 86), the
already-downloaded check (lines 94-99: skip and continue), else the download
invocation (lines 107-117); a failure matching the no-binary signature is a
warning and the loop continues (lines 124-127), any other failure returns
`(False, (req, platform_name, error_output))` at once (line 130).  Returns
the task result together with the event trace. -/
def processPlatforms (env : TaskEnv) (req pkg : String) :
    List (String × String) → Nat → (Bool × Option (String × String × String)) × List Ev
  | [], _ => ((true, none), [])
  | (pname, ptag) :: rest, k =>
    if isDownloaded pkg ptag (env.listings k) then
      ((processPlatforms env req pkg rest (k + 1)).1,
        Ev.listdir k :: Ev.skip req ptag :: (processPlatforms env req pkg rest (k + 1)).2)
    else
      match env.outcome ptag with
      | DownloadOutcome.ok =>
        ((processPlatforms env req pkg rest (k + 1)).1,
          Ev.listdir k :: Ev.invoke req ptag :: (processPlatforms env req pkg rest (k + 1)).2)
      | DownloadOutcome.fail stderr =>
        if matchesNoBinary (stripStr stderr) then
          ((processPlatforms env req pkg rest (k + 1)).1,
            Ev.listdir k :: Ev.invoke req ptag :: Ev.warn req ptag ::
              (processPlatforms env req pkg rest (k + 1)).2)
        else
          ((false, some (req, pname, stripStr stderr)), [Ev.listdir k, Ev.invoke req ptag])

/-- `process_single_requirement` for one requirement line: the platform loop
over `TARGET_PLATFORMS` with the normalised package name of the requirement. -/
def processSingleRequirement (env : TaskEnv) (req : String) :
    (Bool × Option (String × String × String)) × List Ev :=
  processPlatforms env req (normalizeReq req) TARGET_PLATFORMS 0

/-- The per-iteration skip condition: the check of lines 94-97 evaluated
against the listing returned by the `k`-th directory read. -/
def stepSkip (env : TaskEnv) (pkg : String) (p : String × String) (k : Nat) : Bool :=
  isDownloaded pkg p.2 (env.listings k)

/-- The per-iteration fatal condition: not skipped, and the download fails
with error text not matching the no-binary signature (line 128-130). -/
def stepFatal (env : TaskEnv) (pkg : String) (p : String × String) (k : Nat) : Bool :=
  !stepSkip env pkg p k &&
    (match env.outcome p.2 with
     | DownloadOutcome.ok => false
     | DownloadOutcome.fail s => !matchesNoBinary (stripStr s))

/-- The per-iteration warning condition: not skipped, and the download fails
with error text matching the no-binary signature (lines 124-127). -/
def stepWarn (env : TaskEnv) (pkg : String) (p : String × String) (k : Nat) : Bool :=
  !stepSkip env pkg p k &&
    (match env.outcome p.2 with
     | DownloadOutcome.ok => false
     | DownloadOutcome.fail s => matchesNoBinary (stripStr s))

/-- The raw stderr of the recorded outcome for a tag (empty on success). -/
def errOf (env : TaskEnv) (tag : String) : String :=
  match env.outcome tag with
  | DownloadOutcome.ok => ""
  | DownloadOutcome.fail s => s

/-- Count events satisfying a predicate. -/
def evCount (p : Ev → Bool) (l : List Ev) : Nat := l.countP p

/-- Event classifiers. -/
def isListdirEv : Ev → Bool
  | Ev.listdir _ => true
  | _ => false

def isInvokeEv : Ev → Bool
  | Ev.invoke _ _ => true
  | _ => false

/-! ### Batch model (`download_packages_multithreaded`, lines 134-177)

`executor.map` submits every task to the queue at once; workers pull tasks in
submission order, so the set of tasks that have started when the collector
observes the first fatal result is a prefix of the task list of some length
`k` that extends at least one past the first fatal task.  The collector then
calls `executor.shutdown(wait=False, cancel_futures=True)`, which cancels
exactly the tasks that no worker has started; started tasks run to
completion.  A batch execution is therefore characterised by the prefix
length `k` of tasks that actually ran. -/

/-- Per-task environments of one batch run. -/
structure BatchEnv where
  envOf : Nat → TaskEnv

/-- Result and trace of task number `i` of the batch. -/
def taskResult (benv : BatchEnv) (reqs : List String) (i : Nat) :
    (Bool × Option (String × String × String)) × List Ev :=
  processSingleRequirement (benv.envOf i) (reqs.getD i "")

/-- Index of the first task whose result is `(False, ...)` — the first result
at which the collector loop of lines 160-174 halts the batch. -/
def firstFatal (benv : BatchEnv) (reqs : List String) : Option Nat :=
  (List.range reqs.length).find? (fun i => !(taskResult benv reqs i).1.1)

/-- Whether the collector halts the batch (stops and cancels pending work). -/
def batchHalted (benv : BatchEnv) (reqs : List String) : Bool :=
  (firstFatal benv reqs).isSome

/-- Validity of a prefix length `k` as the set of tasks that ran: with no
fatal task every task runs; with first fatal task `F`, at least the tasks up
to and including `F` ran, and cancellation keeps `k` at most the task count. -/
def validSchedule (benv : BatchEnv) (reqs : List String) (k : Nat) : Bool :=
  match firstFatal benv reqs with
  | none => k == reqs.length
  | some F => decide (F < k) && decide (k ≤ reqs.length)

/-- The combined event trace of the tasks that ran, each event tagged with its
task index. -/
def batchTrace (benv : BatchEnv) (reqs : List String) (k : Nat) : List (Nat × Ev) :=
  (List.range k).flatMap (fun i => (taskResult benv reqs i).2.map (Prod.mk i))

/-- Number of download invocations in a batch trace. -/
def invokeCount (tr : List (Nat × Ev)) : Nat :=
  tr.countP (fun x => isInvokeEv x.2)

/-- Model of Python `line.startswith(HASH)` on the raw (unstripped) line. -/
def startsHash (l : String) : Bool :=
  match l.toList with
  | '#' :: _ => true
  | _ => false

/-- `download_wheels.py` line 148: the requirements-file lines that survive
filtering, stripped: `[line.strip() for line in f if line.strip() and not
line.startswith(HASH)]`.  Note the comment test is on the unstripped line. -/
def keptLine (l : String) : Bool :=
  !(stripStr l).isEmpty && !startsHash l

def parseRequirements (lines : List String) : List String :=
  (lines.filter keptLine).map stripStr

/-- `download_wheels.py` line 155: the task tuples `(i + 1, len(requirements),
req)` handed to the worker pool. -/
def mkTasks (reqs : List String) : List (Nat × Nat × String) :=
  (List.enumFrom 0 reqs).map (fun p => (p.1 + 1, reqs.length, p.2))

/-- Whether a requirements-file line is dropped by the filter of line 148:
blank after stripping, or starting with the comment character. -/
def droppedLine (l : String) : Bool :=
  (stripStr l).isEmpty || startsHash l

/-! ### Spec-side model for claim C2

Modelled from the spec (sections 3 and 5): the worker pool operates on "a
shared, read-only snapshot of the existing-files listing taken once before
dispatch", so every skip decision of the platform loop is evaluated against
the one `snapshot` listing and no directory read happens inside the task. -/

def processPlatformsSnapshot (snapshot : List String) (outcome : String → DownloadOutcome)
    (req pkg : String) :
    List (String × String) → (Bool × Option (String × String × String)) × List Ev
  | [] => ((true, none), [])
  | (pname, ptag) :: rest =>
    if isDownloaded pkg ptag snapshot then
      ((processPlatformsSnapshot snapshot outcome req pkg rest).1,
        Ev.skip req ptag :: (processPlatformsSnapshot snapshot outcome req pkg rest).2)
    else
      match outcome ptag with
      | DownloadOutcome.ok =>
        ((processPlatformsSnapshot snapshot outcome req pkg rest).1,
          Ev.invoke req ptag :: (processPlatformsSnapshot snapshot outcome req pkg rest).2)
      | DownloadOutcome.fail stderr =>
        if matchesNoBinary (stripStr stderr) then
          ((processPlatformsSnapshot snapshot outcome req pkg rest).1,
            Ev.invoke req ptag :: Ev.warn req ptag ::
              (processPlatformsSnapshot snapshot outcome req pkg rest).2)
        else
          ((false, some (req, pname, stripStr stderr)), [Ev.invoke req ptag])

/-- Spec-side `process_single_requirement` against the single pre-dispatch
snapshot. -/
def processSingleRequirementSnapshot (snapshot : List String)
    (outcome : String → DownloadOutcome) (req : String) :
    (Bool × Option (String × String × String)) × List Ev :=
  processPlatformsSnapshot snapshot outcome req (normalizeReq req) TARGET_PLATFORMS

/-! ### Concrete inputs used by counterexamples and witnesses -/

/-- A task environment with an empty output directory and all downloads
succeeding. -/
def okEnv : TaskEnv := ⟨fun _ => [], fun _ => DownloadOutcome.ok⟩

/-- A batch in which every task sees an empty directory and succeeds. -/
def okBenv : BatchEnv := ⟨fun _ => okEnv⟩

/-- Environment for C2: the directory is empty at the first read and contains
a `win32` wheel of the package from the second read on (for example because a
concurrent task downloaded it). -/
def growEnv : TaskEnv :=
  ⟨fun k => if k = 0 then [] else ["foo-1.0-cp312-win32.whl"], fun _ => DownloadOutcome.ok⟩

/-- Environment for C3: every read of the output directory shows one file
whose lowercase name starts with the normalised package name but carries no
platform tag. -/
def universalWheelEnv : TaskEnv :=
  ⟨fun _ => ["requests-2.31.0-py3-none-any.whl"], fun _ => DownloadOutcome.ok⟩

/-- Environment for the amended C3: every read shows one matching file per
target platform tag. -/
def allTagsEnv : TaskEnv :=
  ⟨fun _ =>
    ["requests-2.31.0-cp312-cp312-win_amd64.whl",
     "requests-2.31.0-cp312-cp312-win32.whl",
     "requests-2.31.0-cp312-cp312-manylinux2014_x86_64.whl",
     "requests-2.31.0-cp312-cp312-manylinux2014_i686.whl",
     "requests-2.31.0-cp312-cp312-manylinux2014_aarch64.whl"],
   fun _ => DownloadOutcome.ok⟩

/-- Environment whose downloads all fail with an error that does not match
the no-binary signature. -/
def fatalEnv : TaskEnv := ⟨fun _ => [], fun _ => DownloadOutcome.fail "boom"⟩

/-- Environment whose `win32` download fails with the no-binary signature and
all other downloads succeed. -/
def warnEnv : TaskEnv :=
  ⟨fun _ => [],
   fun t =>
     if t = "win32" then
       DownloadOutcome.fail
         "Could not find a version that satisfies the requirement foo"
     else DownloadOutcome.ok⟩

/-- Batch for C4: the first task fails fatally, the second is an ordinary
successful task. -/
def fatalFirstBenv : BatchEnv :=
  ⟨fun i => if i = 0 then fatalEnv else okEnv⟩

/-- The two-file source listing of the C1 scenario. -/
def c1Listing : List String := ["pkgA-1.0-py3-none-any.whl", "pkg_a-1.0.tar.gz"]

/-! ## Helper lemmas: mirror builder -/

theorem lookupGO_addToGroups (gs : List (String × List String)) (key fn k : String) :
    lookupGO (addToGroups gs key fn) k =
      if k = key then some (((lookupGO gs k).getD []) ++ [fn]) else lookupGO gs k := by
  induction gs with
  | nil =>
    by_cases h : key = k
    · subst h
      simp [addToGroups, lookupGO]
    · have h2 : ¬ k = key := fun e => h e.symm
      simp [addToGroups, lookupGO, h, h2]
  | cons g rest ih =>
    by_cases hg : g.1 = key
    · by_cases hk : k = key
      · subst hk
        simp [addToGroups, lookupGO, hg]
      · have hgk : ¬ g.1 = k := fun h => hk (h ▸ hg)
        have hk2 : ¬ key = k := fun e => hk e.symm
        simp [addToGroups, lookupGO, hg, hgk, hk, hk2]
    · by_cases hgk : g.1 = k
      · have hk : ¬ k = key := fun h => hg (hgk.trans h)
        simp [addToGroups, lookupGO, hg, hgk, hk]
      · simp [addToGroups, lookupGO, hg, hgk, ih]

theorem lookupGO_groupAux (l : List String) :
    ∀ (gs : List (String × List String)) (k : String),
      lookupGO
        (l.foldl
          (fun gs fn => if isArchive fn then addToGroups gs (normalizeMirror fn) fn else gs)
          gs) k =
        (match lookupGO gs k with
         | some fs0 => some (fs0 ++ archFilter l k)
         | none => if (archFilter l k).isEmpty then none else some (archFilter l k)) := by
  induction l with
  | nil =>
    intro gs k
    cases h : lookupGO gs k <;> simp [archFilter, h]
  | cons fn l ih =>
    intro gs k
    by_cases ha : isArchive fn
    · by_cases hk : k = normalizeMirror fn
      · have hfilter : archFilter (fn :: l) k = fn :: archFilter l k := by
          subst hk
          simp [archFilter, List.filter, ha]
        rw [List.foldl_cons, if_pos ha, ih, lookupGO_addToGroups, if_pos hk, hfilter]
        cases h : lookupGO gs k <;> simp
      · have hk2 : ¬ normalizeMirror fn = k := fun e => hk e.symm
        have hfilter : archFilter (fn :: l) k = archFilter l k := by
          simp [archFilter, List.filter, ha, hk2]
        rw [List.foldl_cons, if_pos ha, ih, lookupGO_addToGroups, if_neg hk, hfilter]
    · have hfilter : archFilter (fn :: l) k = archFilter l k := by
        simp [archFilter, List.filter, ha]
      rw [List.foldl_cons, if_neg ha, ih, hfilter]

theorem lookupGO_groupPackages (l : List String) (k : String) :
    lookupGO (groupPackages l) k =
      (if (archFilter l k).isEmpty then none else some (archFilter l k)) := by
  have h := lookupGO_groupAux l [] k
  simpa [groupPackages, lookupGO] using h

theorem sortStrings_perm_eq {l1 l2 : List String} (h : l1.Perm l2) :
    sortStrings l1 = sortStrings l2 :=
  List.eq_of_perm_of_sorted
    (((List.perm_insertionSort _ l1).trans h).trans (List.perm_insertionSort _ l2).symm)
    (List.sorted_insertionSort _ l1) (List.sorted_insertionSort _ l2)

theorem indexHtml_perm (k : String) {fs1 fs2 : List String} (h : fs1.Perm fs2) :
    indexHtml k fs1 = indexHtml k fs2 := by
  unfold indexHtml
  rw [sortStrings_perm_eq h]

theorem addToGroups_mem (key fn : String) :
    ∀ gs, ∀ g ∈ addToGroups gs key fn, ∀ x ∈ g.2, x = fn ∨ ∃ g' ∈ gs, x ∈ g'.2 := by
  intro gs
  induction gs with
  | nil =>
    intro g hg x hx
    simp [addToGroups] at hg
    subst hg
    simp at hx
    exact Or.inl hx
  | cons g0 rest ih =>
    intro g hg x hx
    by_cases h0 : g0.1 = key
    · simp only [addToGroups, if_pos h0, List.mem_cons] at hg
      rcases hg with hg | hg
      · subst hg
        simp only at hx
        rcases List.mem_append.1 hx with hx | hx
        · exact Or.inr ⟨g0, List.mem_cons_self _ _, hx⟩
        · simp at hx
          exact Or.inl hx
      · exact Or.inr ⟨g, List.mem_cons_of_mem _ hg, hx⟩
    · simp only [addToGroups, if_neg h0, List.mem_cons] at hg
      rcases hg with hg | hg
      · subst hg
        exact Or.inr ⟨g, List.mem_cons_self _ _, hx⟩
      · rcases ih g hg x hx with h | ⟨g', hg', hx'⟩
        · exact Or.inl h
        · exact Or.inr ⟨g', List.mem_cons_of_mem _ hg', hx'⟩

theorem groupAux_mem_archive (l : List String) :
    ∀ gs, (∀ g ∈ gs, ∀ x ∈ g.2, isArchive x = true) →
      ∀ g ∈ l.foldl
          (fun gs fn => if isArchive fn then addToGroups gs (normalizeMirror fn) fn else gs)
          gs,
        ∀ x ∈ g.2, isArchive x = true := by
  induction l with
  | nil => intro gs hgs; simpa using hgs
  | cons fn l ih =>
    intro gs hgs
    rw [List.foldl_cons]
    by_cases ha : isArchive fn
    · rw [if_pos ha]
      refine ih _ ?_
      intro g hg x hx
      rcases addToGroups_mem (normalizeMirror fn) fn gs g hg x hx with h | ⟨g', hg', hx'⟩
      · exact h ▸ ha
      · exact hgs g' hg' x hx'
    · rw [if_neg ha]
      exact ih gs hgs

theorem groupPackages_mem_archive (l : List String) :
    ∀ g ∈ groupPackages l, ∀ x ∈ g.2, isArchive x = true := by
  have h := groupAux_mem_archive l [] (by intro g hg; simp at hg)
  exact h

theorem mem_createSimpleRepository (listing : List String) (op : MirrorOp) :
    op ∈ createSimpleRepository true listing ↔
      op = MirrorOp.mkdir ["mirror", "simple"] ∨
      op = MirrorOp.message "Creating mirror structure in: mirror/simple" ∨
      (∃ g ∈ groupPackages listing,
        op = MirrorOp.mkdir ["mirror", "simple", g.1] ∨
        (∃ fn ∈ sortStrings g.2, MirrorOp.copyFile fn g.1 = op) ∨
        op = MirrorOp.writeIndex g.1 (indexHtml g.1 g.2) ∨
        op = MirrorOp.message ("- Created index for " ++ g.1)) ∨
      op = MirrorOp.message "Mirror structure created successfully." := by
  have he : createSimpleRepository true listing =
      [MirrorOp.mkdir ["mirror", "simple"],
       MirrorOp.message "Creating mirror structure in: mirror/simple"] ++
      (groupPackages listing).flatMap (fun g =>
        MirrorOp.mkdir ["mirror", "simple", g.1] ::
        ((sortStrings g.2).map (fun fn => MirrorOp.copyFile fn g.1) ++
         [MirrorOp.writeIndex g.1 (indexHtml g.1 g.2),
          MirrorOp.message ("- Created index for " ++ g.1)])) ++
      [MirrorOp.message "Mirror structure created successfully."] := rfl
  rw [he]
  simp only [List.mem_append, List.mem_flatMap, List.mem_cons, List.mem_singleton,
    List.mem_map, List.not_mem_nil, or_false, or_assoc]

/-! ## Claim theorems: mirror builder -/

/-- C1 counterexample: the claim states that `pkgA-1.0-py3-none-any.whl` and
`pkg_a-1.0.tar.gz` normalise to the same package name `pkg-a` and land in a
single package subdirectory.  In fact the code normalises the first file to
`pkga` (lowercasing inserts no hyphen) and the second to `pkg-a`, producing
two distinct package groups, not one. -/
theorem c1_counterexample :
    normalizeMirror "pkgA-1.0-py3-none-any.whl" = "pkga" ∧
    normalizeMirror "pkg_a-1.0.tar.gz" = "pkg-a" ∧
    normalizeMirror "pkgA-1.0-py3-none-any.whl" ≠ normalizeMirror "pkg_a-1.0.tar.gz" ∧
    groupPackages c1Listing =
      [("pkga", ["pkgA-1.0-py3-none-any.whl"]), ("pkg-a", ["pkg_a-1.0.tar.gz"])] := by
  refine ⟨rfl, rfl, by decide, rfl⟩

set_option maxRecDepth 40000 in
/-- C1 (amended): for a source directory containing exactly
`pkgA-1.0-py3-none-any.whl` and `pkg_a-1.0.tar.gz`, the mirror builder
normalises the filenames to two different package names, `pkga` and `pkg-a`,
places each copied file in its own package subdirectory, and writes a separate
index.html for each of the two packages, each containing a link to only its
own file. -/
theorem c1_two_groups :
    lookupGO (groupPackages c1Listing) "pkga" = some ["pkgA-1.0-py3-none-any.whl"] ∧
    lookupGO (groupPackages c1Listing) "pkg-a" = some ["pkg_a-1.0.tar.gz"] ∧
    MirrorOp.mkdir ["mirror", "simple", "pkga"] ∈ createSimpleRepository true c1Listing ∧
    MirrorOp.mkdir ["mirror", "simple", "pkg-a"] ∈ createSimpleRepository true c1Listing ∧
    MirrorOp.copyFile "pkgA-1.0-py3-none-any.whl" "pkga" ∈ createSimpleRepository true c1Listing ∧
    MirrorOp.copyFile "pkg_a-1.0.tar.gz" "pkg-a" ∈ createSimpleRepository true c1Listing ∧
    MirrorOp.writeIndex "pkga" (indexHtml "pkga" ["pkgA-1.0-py3-none-any.whl"])
      ∈ createSimpleRepository true c1Listing ∧
    MirrorOp.writeIndex "pkg-a" (indexHtml "pkg-a" ["pkg_a-1.0.tar.gz"])
      ∈ createSimpleRepository true c1Listing := by
  refine ⟨rfl, rfl, ?_, ?_, ?_, ?_, ?_, ?_⟩ <;> decide


/-- C6: running the mirror builder twice on an unchanged source directory
produces byte-identical index.html content for every package.  The only
nondeterminism between the two runs is the order in which `os.listdir` returns
the unchanged set of files, so the two runs see listings `l1` and `l2` that
are permutations of each other; for every package name `k` the index content
written (if any) is identical, because files are grouped by a
listing-order-independent key and sorted before being linked. -/
theorem c6_rerun_byte_identical (l1 l2 : List String) (h : l1.Perm l2) (k : String) :
    Option.map (indexHtml k) (lookupGO (groupPackages l1) k) =
      Option.map (indexHtml k) (lookupGO (groupPackages l2) k) := by
  rw [lookupGO_groupPackages, lookupGO_groupPackages]
  have hp : (archFilter l1 k).Perm (archFilter l2 k) := h.filter _
  cases h1 : archFilter l1 k with
  | nil =>
    have h2 : archFilter l2 k = [] := ((h1 ▸ hp : ([] : List String).Perm _).symm).eq_nil
    simp [h1, h2]
  | cons a fs =>
    have h2 : archFilter l2 k ≠ [] := by
      intro he
      rw [h1, he] at hp
      exact List.cons_ne_nil a fs hp.eq_nil
    have h1ne : archFilter l1 k ≠ [] := by simp [h1]
    rw [← h1]
    have e1 : (archFilter l1 k).isEmpty = false := by
      rw [List.isEmpty_eq_false_iff_exists_mem]
      rw [h1]
      exact ⟨a, List.mem_cons_self _ _⟩
    have e2 : (archFilter l2 k).isEmpty = false := by
      rw [List.isEmpty_eq_false_iff_exists_mem]
      cases hc : archFilter l2 k with
      | nil => exact absurd hc h2
      | cons b bs => exact ⟨b, List.mem_cons_self _ _⟩
    rw [e1, e2]
    simp only [Bool.false_eq_true, if_false]
    exact congrArg some (indexHtml_perm k hp)

/-- C6 witness: the theorem applied to the two listdir orders of a concrete
two-file directory and the package name they share. -/
theorem c6_rerun_byte_identical_witness :
    (["b_pkg-1.0.whl", "b_pkg-2.0.whl"].Perm ["b_pkg-2.0.whl", "b_pkg-1.0.whl"]) ∧
    Option.map (indexHtml "b-pkg") (lookupGO (groupPackages ["b_pkg-1.0.whl", "b_pkg-2.0.whl"]) "b-pkg") =
      Option.map (indexHtml "b-pkg") (lookupGO (groupPackages ["b_pkg-2.0.whl", "b_pkg-1.0.whl"]) "b-pkg") :=
  ⟨by decide, c6_rerun_byte_identical _ _ (by decide) "b-pkg"⟩

/-- C7: if the source directory does not exist, `create_simple_repository`
prints an error message and returns before creating anything: the trace is
exactly one console message, with no mkdir, no copy and no index write, for
every possible listing. -/
theorem c7_missing_source_unchanged (listing : List String) :
    createSimpleRepository false listing = [MirrorOp.message "Error: Source directory not found."] ∧
    (createSimpleRepository false listing).all isMessageOp = true :=
  ⟨rfl, rfl⟩

/-- C10: a file whose name ends in neither `.whl` nor `.tar.gz` is ignored
entirely: it belongs to no package group, no copy operation has it as source,
and every index written is generated from a file list not containing it. -/
theorem c10_nonarchive_ignored (listing : List String) (f : String)
    (hf : isArchive f = false) :
    (∀ g ∈ groupPackages listing, f ∉ g.2) ∧
    (∀ pkg, MirrorOp.copyFile f pkg ∉ createSimpleRepository true listing) ∧
    (∀ pkg c, MirrorOp.writeIndex pkg c ∈ createSimpleRepository true listing →
      ∃ fs, c = indexHtml pkg fs ∧ f ∉ fs) := by
  have hmem : ∀ g ∈ groupPackages listing, f ∉ g.2 := by
    intro g hg hfg
    have := groupPackages_mem_archive listing g hg f hfg
    rw [hf] at this
    exact Bool.false_ne_true this
  refine ⟨hmem, ?_, ?_⟩
  · intro pkg hin
    rcases (mem_createSimpleRepository listing _).1 hin with
      h | h | ⟨g, hg, h | ⟨fn, hfn, h⟩ | h | h⟩ | h
    · exact MirrorOp.noConfusion h
    · exact MirrorOp.noConfusion h
    · exact MirrorOp.noConfusion h
    · have hfe : fn = f := by injection h
      have h1 : f ∈ sortStrings g.2 := hfe ▸ hfn
      have h2 : f ∈ g.2 := (List.perm_insertionSort _ g.2).mem_iff.1 h1
      exact hmem g hg h2
    · exact MirrorOp.noConfusion h
    · exact MirrorOp.noConfusion h
    · exact MirrorOp.noConfusion h
  · intro pkg c hin
    rcases (mem_createSimpleRepository listing _).1 hin with
      h | h | ⟨g, hg, h | ⟨fn, hfn, h⟩ | h | h⟩ | h
    · exact MirrorOp.noConfusion h
    · exact MirrorOp.noConfusion h
    · exact MirrorOp.noConfusion h
    · exact MirrorOp.noConfusion h
    · refine ⟨g.2, ?_, hmem g hg⟩
      injection h with h1 h2
      rw [h1, h2]
    · exact MirrorOp.noConfusion h
    · exact MirrorOp.noConfusion h

/-- C10 witness: the theorem applied to a directory holding one wheel and one
text file. -/
theorem c10_nonarchive_ignored_witness :
    isArchive "notes.txt" = false ∧
    ((∀ g ∈ groupPackages ["a-1.0.whl", "notes.txt"], "notes.txt" ∉ g.2) ∧
     (∀ pkg, MirrorOp.copyFile "notes.txt" pkg ∉ createSimpleRepository true ["a-1.0.whl", "notes.txt"]) ∧
     (∀ pkg c, MirrorOp.writeIndex pkg c ∈ createSimpleRepository true ["a-1.0.whl", "notes.txt"] →
       ∃ fs, c = indexHtml pkg fs ∧ "notes.txt" ∉ fs)) :=
  ⟨by decide, c10_nonarchive_ignored ["a-1.0.whl", "notes.txt"] "notes.txt" (by decide)⟩

/-! ## Helper lemmas: downloader platform loop -/

theorem processPlatforms_congr (envA envB : TaskEnv) (req pkg : String)
    (plats : List (String × String)) :
    ∀ k0 : Nat,
      (∀ j, j < plats.length → envA.listings (k0 + j) = envB.listings (k0 + j)) →
      (∀ p ∈ plats, envA.outcome p.2 = envB.outcome p.2) →
      processPlatforms envA req pkg plats k0 = processPlatforms envB req pkg plats k0 := by
  induction plats with
  | nil => intro k0 _ _; rfl
  | cons hd rest ih =>
    intro k0 hL hO
    obtain ⟨pn, pt⟩ := hd
    have hl0 : envA.listings k0 = envB.listings k0 := by
      have h := hL 0 (Nat.succ_pos _)
      simpa using h
    have ho0 : envA.outcome pt = envB.outcome pt := hO (pn, pt) (List.mem_cons_self _ _)
    have ihr : processPlatforms envA req pkg rest (k0 + 1) =
        processPlatforms envB req pkg rest (k0 + 1) := by
      apply ih
      · intro j hj
        have h := hL (j + 1) (Nat.succ_lt_succ hj)
        have e : k0 + (j + 1) = k0 + 1 + j := by omega
        rw [e] at h
        exact h
      · intro p hp
        exact hO p (List.mem_cons_of_mem _ hp)
    simp only [processPlatforms, hl0, ho0, ihr]

theorem processPlatforms_listdir_of_success (env : TaskEnv) (req pkg : String)
    (plats : List (String × String)) :
    ∀ k0 : Nat, (processPlatforms env req pkg plats k0).1.1 = true →
      evCount isListdirEv (processPlatforms env req pkg plats k0).2 = plats.length := by
  induction plats with
  | nil => intro k0 _; rfl
  | cons hd rest ih =>
    intro k0 hs
    obtain ⟨pn, pt⟩ := hd
    by_cases hskip : isDownloaded pkg pt (env.listings k0) = true
    · simp only [processPlatforms, if_pos hskip] at hs ⊢
      have hrec := ih (k0 + 1) hs
      simp only [evCount] at hrec
      simp [evCount, List.countP_cons, isListdirEv, hrec]
    · cases ho : env.outcome pt with
      | ok =>
        simp only [processPlatforms, if_neg hskip, ho] at hs ⊢
        have hrec := ih (k0 + 1) hs
        simp only [evCount] at hrec
        simp [evCount, List.countP_cons, isListdirEv, hrec]
      | fail s =>
        by_cases hm : matchesNoBinary (stripStr s) = true
        · simp only [processPlatforms, if_neg hskip, ho, if_pos hm] at hs ⊢
          have hrec := ih (k0 + 1) hs
          simp only [evCount] at hrec
          simp [evCount, List.countP_cons, isListdirEv, hrec]
        · simp only [processPlatforms, if_neg hskip, ho, if_neg hm] at hs
          exact absurd hs (by simp)

theorem processPlatforms_noFatal (env : TaskEnv) (req pkg : String)
    (plats : List (String × String)) :
    ∀ k0 : Nat,
      (∀ q ∈ List.enumFrom k0 plats, stepFatal env pkg q.2 q.1 = false) →
      (processPlatforms env req pkg plats k0).1 = (true, none) ∧
      evCount isListdirEv (processPlatforms env req pkg plats k0).2 = plats.length ∧
      evCount isInvokeEv (processPlatforms env req pkg plats k0).2 =
        (List.enumFrom k0 plats).countP (fun q => !stepSkip env pkg q.2 q.1) := by
  induction plats with
  | nil => intro k0 _; exact ⟨rfl, rfl, rfl⟩
  | cons hd rest ih =>
    intro k0 h
    obtain ⟨pn, pt⟩ := hd
    have h0 : stepFatal env pkg (pn, pt) k0 = false :=
      h (k0, (pn, pt)) (List.mem_cons_self _ _)
    have hrest : ∀ q ∈ List.enumFrom (k0 + 1) rest, stepFatal env pkg q.2 q.1 = false := by
      intro q hq
      exact h q (List.mem_cons_of_mem _ hq)
    have ihr := ih (k0 + 1) hrest
    have henum : List.enumFrom k0 ((pn, pt) :: rest) =
        (k0, (pn, pt)) :: List.enumFrom (k0 + 1) rest := rfl
    by_cases hskip : isDownloaded pkg pt (env.listings k0) = true
    · have hstep : stepSkip env pkg (pn, pt) k0 = true := hskip
      refine ⟨?_, ?_, ?_⟩
      · simp only [processPlatforms, if_pos hskip]
        exact ihr.1
      · simp only [processPlatforms, if_pos hskip]
        have hrec := ihr.2.1
        simp only [evCount] at hrec
        simp [evCount, List.countP_cons, isListdirEv, hrec]
      · simp only [processPlatforms, if_pos hskip, henum]
        have hrec := ihr.2.2
        simp only [evCount] at hrec
        simp [evCount, List.countP_cons, isInvokeEv, hrec, hstep]
    · have hstep : stepSkip env pkg (pn, pt) k0 = false := by
        simp [stepSkip, hskip]
      cases ho : env.outcome pt with
      | ok =>
        refine ⟨?_, ?_, ?_⟩
        · simp only [processPlatforms, if_neg hskip, ho]
          exact ihr.1
        · simp only [processPlatforms, if_neg hskip, ho]
          have hrec := ihr.2.1
          simp only [evCount] at hrec
          simp [evCount, List.countP_cons, isListdirEv, hrec]
        · simp only [processPlatforms, if_neg hskip, ho, henum]
          have hrec := ihr.2.2
          simp only [evCount] at hrec
          simp [evCount, List.countP_cons, isInvokeEv, hrec, hstep]
      | fail s =>
        have hm : matchesNoBinary (stripStr s) = true := by
          simp [stepFatal, stepSkip, hskip, ho] at h0
          exact h0
        refine ⟨?_, ?_, ?_⟩
        · simp only [processPlatforms, if_neg hskip, ho, if_pos hm]
          exact ihr.1
        · simp only [processPlatforms, if_neg hskip, ho, if_pos hm]
          have hrec := ihr.2.1
          simp only [evCount] at hrec
          simp [evCount, List.countP_cons, isListdirEv, hrec]
        · simp only [processPlatforms, if_neg hskip, ho, if_pos hm, henum]
          have hrec := ihr.2.2
          simp only [evCount] at hrec
          simp [evCount, List.countP_cons, isInvokeEv, hrec, hstep]

theorem processPlatforms_warnMem (env : TaskEnv) (req pkg : String)
    (plats : List (String × String)) :
    ∀ k0 : Nat,
      (∀ q ∈ List.enumFrom k0 plats, stepFatal env pkg q.2 q.1 = false) →
      ∀ q ∈ List.enumFrom k0 plats, stepWarn env pkg q.2 q.1 = true →
        Ev.warn req q.2.2 ∈ (processPlatforms env req pkg plats k0).2 := by
  induction plats with
  | nil => intro k0 _ q hq; exact absurd hq (List.not_mem_nil q)
  | cons hd rest ih =>
    intro k0 h q hq hw
    obtain ⟨pn, pt⟩ := hd
    have h0 : stepFatal env pkg (pn, pt) k0 = false :=
      h (k0, (pn, pt)) (List.mem_cons_self _ _)
    have hrest : ∀ q ∈ List.enumFrom (k0 + 1) rest, stepFatal env pkg q.2 q.1 = false := by
      intro q hq
      exact h q (List.mem_cons_of_mem _ hq)
    rcases List.mem_cons.1 hq with hq0 | hqr
    · subst hq0
      have hskip : stepSkip env pkg (pn, pt) k0 = false := by
        rcases Bool.eq_false_or_eq_true (stepSkip env pkg (pn, pt) k0) with hs | hs
        · rw [stepWarn, hs] at hw
          simp at hw
        · exact hs
      cases ho : env.outcome pt with
      | ok =>
        rw [stepWarn, ho, hskip] at hw
        simp at hw
      | fail s =>
        have hm : matchesNoBinary (stripStr s) = true := by
          rw [stepWarn, ho, hskip] at hw
          simpa using hw
        have hskip2 : ¬ isDownloaded pkg pt (env.listings k0) = true := by
          simp only [stepSkip] at hskip
          simp [hskip]
        simp only [processPlatforms, if_neg hskip2, ho, if_pos hm]
        exact List.mem_cons_of_mem _ (List.mem_cons_of_mem _ (List.mem_cons_self _ _))
    · have hmemrec := ih (k0 + 1) hrest q hqr hw
      by_cases hskip : isDownloaded pkg pt (env.listings k0) = true
      · simp only [processPlatforms, if_pos hskip]
        exact List.mem_cons_of_mem _ (List.mem_cons_of_mem _ hmemrec)
      · cases ho : env.outcome pt with
        | ok =>
          simp only [processPlatforms, if_neg hskip, ho]
          exact List.mem_cons_of_mem _ (List.mem_cons_of_mem _ hmemrec)
        | fail s =>
          have hm : matchesNoBinary (stripStr s) = true := by
            simp [stepFatal, stepSkip, hskip, ho] at h0
            exact h0
          simp only [processPlatforms, if_neg hskip, ho, if_pos hm]
          exact List.mem_cons_of_mem _ (List.mem_cons_of_mem _ (List.mem_cons_of_mem _ hmemrec))

theorem processPlatforms_fatal (env : TaskEnv) (req pkg : String)
    (plats : List (String × String)) :
    ∀ (k0 j : Nat), j < plats.length →
      stepFatal env pkg (plats.getD j ("", "")) (k0 + j) = true →
      (∀ i, i < j → stepFatal env pkg (plats.getD i ("", "")) (k0 + i) = false) →
      (processPlatforms env req pkg plats k0).1.1 = false ∧
      (processPlatforms env req pkg plats k0).1.2 =
        some (req, (plats.getD j ("", "")).1,
          stripStr (errOf env (plats.getD j ("", "")).2)) ∧
      evCount isListdirEv (processPlatforms env req pkg plats k0).2 = j + 1 := by
  induction plats with
  | nil => intro k0 j hj; exact absurd hj (Nat.not_lt_zero j)
  | cons hd rest ih =>
    intro k0 j hj hfat hbefore
    obtain ⟨pn, pt⟩ := hd
    cases j with
    | zero =>
      have hfat0 : stepFatal env pkg (pn, pt) k0 = true := by
        simpa using hfat
      have hskip : stepSkip env pkg (pn, pt) k0 = false := by
        rcases Bool.eq_false_or_eq_true (stepSkip env pkg (pn, pt) k0) with hs | hs
        · rw [stepFatal, hs] at hfat0
          simp at hfat0
        · exact hs
      have hskip2 : ¬ isDownloaded pkg pt (env.listings k0) = true := by
        simp only [stepSkip] at hskip
        simp [hskip]
      cases ho : env.outcome pt with
      | ok =>
        rw [stepFatal, ho, hskip] at hfat0
        simp at hfat0
      | fail s =>
        have hm : ¬ matchesNoBinary (stripStr s) = true := by
          rw [stepFatal, ho, hskip] at hfat0
          simp at hfat0
          simp [hfat0]
        refine ⟨?_, ?_, ?_⟩
        · simp only [processPlatforms, if_neg hskip2, ho, if_neg hm]
        · simp only [processPlatforms, if_neg hskip2, ho, if_neg hm]
          simp [errOf, ho]
        · simp only [processPlatforms, if_neg hskip2, ho, if_neg hm]
          simp [evCount, List.countP_cons, isListdirEv]
    | succ jj =>
      have h0 : stepFatal env pkg (pn, pt) k0 = false := by
        have := hbefore 0 (Nat.succ_pos jj)
        simpa using this
      have hfat2 : stepFatal env pkg (rest.getD jj ("", "")) (k0 + 1 + jj) = true := by
        have e : k0 + (jj + 1) = k0 + 1 + jj := by omega
        have hx := hfat
        rw [List.getD_cons_succ] at hx
        rw [e] at hx
        exact hx
      have hbefore2 : ∀ i, i < jj → stepFatal env pkg (rest.getD i ("", "")) (k0 + 1 + i) = false := by
        intro i hi
        have hx := hbefore (i + 1) (Nat.succ_lt_succ hi)
        rw [List.getD_cons_succ] at hx
        have e : k0 + (i + 1) = k0 + 1 + i := by omega
        rw [e] at hx
        exact hx
      have ihr := ih (k0 + 1) jj (Nat.lt_of_succ_lt_succ hj) hfat2 hbefore2
      have hgoal2 : ((pn, pt) :: rest).getD (jj + 1) ("", "") = rest.getD jj ("", "") :=
        List.getD_cons_succ
      by_cases hskip : isDownloaded pkg pt (env.listings k0) = true
      · refine ⟨?_, ?_, ?_⟩
        · simp only [processPlatforms, if_pos hskip]
          exact ihr.1
        · simp only [processPlatforms, if_pos hskip, hgoal2]
          exact ihr.2.1
        · simp only [processPlatforms, if_pos hskip]
          have hrec := ihr.2.2
          simp only [evCount] at hrec
          simp [evCount, List.countP_cons, isListdirEv, hrec]
      · have hskipb : stepSkip env pkg (pn, pt) k0 = false := by
          simp [stepSkip, hskip]
        cases ho : env.outcome pt with
        | ok =>
          refine ⟨?_, ?_, ?_⟩
          · simp only [processPlatforms, if_neg hskip, ho]
            exact ihr.1
          · simp only [processPlatforms, if_neg hskip, ho, hgoal2]
            exact ihr.2.1
          · simp only [processPlatforms, if_neg hskip, ho]
            have hrec := ihr.2.2
            simp only [evCount] at hrec
            simp [evCount, List.countP_cons, isListdirEv, hrec]
        | fail s =>
          have hm : matchesNoBinary (stripStr s) = true := by
            simp [stepFatal, stepSkip, hskip, ho] at h0
            exact h0
          refine ⟨?_, ?_, ?_⟩
          · simp only [processPlatforms, if_neg hskip, ho, if_pos hm]
            exact ihr.1
          · simp only [processPlatforms, if_neg hskip, ho, if_pos hm, hgoal2]
            exact ihr.2.1
          · simp only [processPlatforms, if_neg hskip, ho, if_pos hm]
            have hrec := ihr.2.2
            simp only [evCount] at hrec
            simp [evCount, List.countP_cons, isListdirEv, hrec]

/-! ## Helper lemmas: batch model -/

theorem sum_map_const_nat {α : Type} (c : Nat) (f : α → Nat) :
    ∀ l : List α, (∀ x ∈ l, f x = c) → (l.map f).sum = l.length * c := by
  intro l
  induction l with
  | nil => intro _; simp
  | cons a l ih =>
    intro h
    have ha := h a (List.mem_cons_self _ _)
    have hl := ih (fun x hx => h x (List.mem_cons_of_mem _ hx))
    rw [List.map_cons, List.sum_cons, ha, hl, List.length_cons, Nat.succ_mul, Nat.add_comm]

theorem invokeCount_batchTrace (benv : BatchEnv) (reqs : List String) :
    ∀ k, invokeCount (batchTrace benv reqs k) =
      ((List.range k).map (fun i => evCount isInvokeEv (taskResult benv reqs i).2)).sum := by
  intro k
  induction k with
  | zero => rfl
  | succ k ih =>
    have h1 : batchTrace benv reqs (k + 1) =
        batchTrace benv reqs k ++ (taskResult benv reqs k).2.map (Prod.mk k) := by
      rw [batchTrace, batchTrace, List.range_succ, List.flatMap_append]
      simp
    rw [h1, invokeCount, List.countP_append, List.range_succ, List.map_append, List.sum_append]
    rw [← invokeCount, ih]
    rw [List.countP_map]
    have hc : ((fun x : Nat × Ev => isInvokeEv x.2) ∘ Prod.mk k) = isInvokeEv := rfl
    rw [hc]
    simp [evCount]

/-! ## Claim theorems: downloader -/

/-- C8: for `N` requirements, if every already-downloaded check comes up empty
(no pre-existing matching file at any read, which also covers the assumption
that no concurrent download produces a file matching another pending pair)
and every download succeeds, then every valid batch execution performs
exactly `N * 5` download invocations — one per (requirement, platform) pair —
for every admissible schedule, i.e. independent of the worker count. -/
theorem c8_exact_invocation_count (benv : BatchEnv) (reqs : List String) (k : Nat)
    (hok : ∀ i, i < reqs.length → ∀ q ∈ List.enumFrom 0 TARGET_PLATFORMS,
        (benv.envOf i).outcome q.2.2 = DownloadOutcome.ok)
    (hfree : ∀ i, i < reqs.length → ∀ q ∈ List.enumFrom 0 TARGET_PLATFORMS,
        stepSkip (benv.envOf i) (normalizeReq (reqs.getD i "")) q.2 q.1 = false)
    (hsched : validSchedule benv reqs k = true) :
    invokeCount (batchTrace benv reqs k) = reqs.length * TARGET_PLATFORMS.length := by
  have htask : ∀ i, i < reqs.length →
      (taskResult benv reqs i).1 = (true, none) ∧
      evCount isInvokeEv (taskResult benv reqs i).2 = TARGET_PLATFORMS.length := by
    intro i hi
    have hnf : ∀ q ∈ List.enumFrom 0 TARGET_PLATFORMS,
        stepFatal (benv.envOf i) (normalizeReq (reqs.getD i "")) q.2 q.1 = false := by
      intro q hq
      rw [stepFatal, hok i hi q hq]
      simp
    have h := processPlatforms_noFatal (benv.envOf i) (reqs.getD i "")
      (normalizeReq (reqs.getD i "")) TARGET_PLATFORMS 0 hnf
    refine ⟨h.1, ?_⟩
    rw [taskResult, processSingleRequirement] at *
    rw [h.2.2]
    have hall : (List.enumFrom 0 TARGET_PLATFORMS).countP
        (fun q => !stepSkip (benv.envOf i) (normalizeReq (reqs.getD i "")) q.2 q.1) =
        (List.enumFrom 0 TARGET_PLATFORMS).length := by
      rw [List.countP_eq_length]
      intro q hq
      rw [hfree i hi q hq]
      rfl
    rw [hall]
    rfl
  have hnone : firstFatal benv reqs = none := by
    rw [firstFatal, List.find?_eq_none]
    intro i hi
    have hi2 : i < reqs.length := List.mem_range.1 hi
    rw [(htask i hi2).1]
    simp
  have hk : k = reqs.length := by
    rw [validSchedule, hnone] at hsched
    exact beq_iff_eq.1 hsched
  rw [invokeCount_batchTrace, sum_map_const_nat (TARGET_PLATFORMS.length)
    (fun i => evCount isInvokeEv (taskResult benv reqs i).2) (List.range k)
    (fun i hi => (htask i (by rw [← hk]; exact List.mem_range.1 hi)).2)]
  rw [List.length_range, hk]

/-- C8 witness: one requirement, an empty directory, all downloads succeed,
and the unique valid schedule: exactly five invocations are performed. -/
theorem c8_exact_invocation_count_witness :
    (∀ i, i < (["alpha"] : List String).length → ∀ q ∈ List.enumFrom 0 TARGET_PLATFORMS,
        (okBenv.envOf i).outcome q.2.2 = DownloadOutcome.ok) ∧
    (∀ i, i < (["alpha"] : List String).length → ∀ q ∈ List.enumFrom 0 TARGET_PLATFORMS,
        stepSkip (okBenv.envOf i) (normalizeReq ((["alpha"] : List String).getD i ""))
          q.2 q.1 = false) ∧
    validSchedule okBenv ["alpha"] 1 = true ∧
    invokeCount (batchTrace okBenv ["alpha"] 1) =
      (["alpha"] : List String).length * TARGET_PLATFORMS.length :=
  ⟨by decide, by decide, by decide,
    c8_exact_invocation_count okBenv ["alpha"] 1 (by decide) (by decide) (by decide)⟩

/-- C2 counterexample: the claim states that every skip decision is made
against one listing computed before dispatch.  Here are two environments with
the same pre-dispatch listing (the first `os.listdir` result, the empty
directory) and the same download outcomes; they nevertheless produce different
results, because the code re-reads the directory before every platform
attempt and the second environment returns a `win32` wheel from the second
read on.  Furthermore the run performs five directory reads inside the task
(one per platform), not zero, and differs from the spec-side single-snapshot
semantics evaluated on the pre-dispatch listing. -/
theorem c2_counterexample :
    okEnv.listings 0 = growEnv.listings 0 ∧
    okEnv.outcome = growEnv.outcome ∧
    processSingleRequirement okEnv "foo" ≠ processSingleRequirement growEnv "foo" ∧
    evCount isListdirEv (processSingleRequirement growEnv "foo").2 = 5 ∧
    processSingleRequirement growEnv "foo" ≠
      processSingleRequirementSnapshot (growEnv.listings 0) growEnv.outcome "foo" :=
  ⟨rfl, rfl, by decide, by decide, by decide⟩

/-- C2 (amended): inside each worker task the output-directory listing is
re-read at the start of every platform iteration — the task behaviour is a
function of the per-iteration listings (the first five `os.listdir` results)
and the download outcomes, and a task that completes without fatal error has
performed exactly five directory reads, one per (requirement, platform)
pair, rather than relying on a single pre-dispatch snapshot. -/
theorem c2_fresh_read_per_iteration (envA envB : TaskEnv) (req : String)
    (hL : ∀ j, j < TARGET_PLATFORMS.length → envA.listings j = envB.listings j)
    (hO : ∀ p ∈ TARGET_PLATFORMS, envA.outcome p.2 = envB.outcome p.2) :
    processSingleRequirement envA req = processSingleRequirement envB req ∧
    ((processSingleRequirement envA req).1.1 = true →
      evCount isListdirEv (processSingleRequirement envA req).2 = TARGET_PLATFORMS.length) := by
  constructor
  · rw [processSingleRequirement, processSingleRequirement]
    apply processPlatforms_congr
    · intro j hj
      have h := hL j hj
      simpa using h
    · exact hO
  · intro hs
    exact processPlatforms_listdir_of_success envA req (normalizeReq req) TARGET_PLATFORMS 0 hs

/-- C2 witness: the amended theorem applied to a concrete environment. -/
theorem c2_fresh_read_per_iteration_witness :
    (∀ j, j < TARGET_PLATFORMS.length → okEnv.listings j = okEnv.listings j) ∧
    (∀ p ∈ TARGET_PLATFORMS, okEnv.outcome p.2 = okEnv.outcome p.2) ∧
    (processSingleRequirement okEnv "foo" = processSingleRequirement okEnv "foo" ∧
     ((processSingleRequirement okEnv "foo").1.1 = true →
       evCount isListdirEv (processSingleRequirement okEnv "foo").2 =
         TARGET_PLATFORMS.length)) :=
  ⟨fun _ _ => rfl, fun _ _ => rfl,
    c2_fresh_read_per_iteration okEnv okEnv "foo" (fun _ _ => rfl) (fun _ _ => rfl)⟩

/-- C3 counterexample: the claim states that a pre-existing file whose
lowercase name starts with the normalised package name suffices for zero
download invocations.  With `requests-2.31.0-py3-none-any.whl` present at
every directory read — a file that starts with the package name `requests`
but contains no platform tag — the downloader still performs five
invocations, one per platform, because the skip check of lines 94-97 also
requires the platform tag to occur in the filename. -/
theorem c3_counterexample :
    (normalizeReq "requests").toList.isPrefixOf
      (lowerList ("requests-2.31.0-py3-none-any.whl").toList) = true ∧
    (∀ k, universalWheelEnv.listings k = ["requests-2.31.0-py3-none-any.whl"]) ∧
    evCount isInvokeEv (processSingleRequirement universalWheelEnv "requests").2 = 5 ∧
    ¬ evCount isInvokeEv (processSingleRequirement universalWheelEnv "requests").2 = 0 :=
  ⟨by decide, fun _ => rfl, by decide, by decide⟩

/-- C3 (amended): the downloader issues zero download invocations for an
entry exactly when, at every platform iteration, the directory read shows a
file whose lowercase name both starts with the entry normalised package name
and contains that platform tag; under that condition every platform is
skipped and the task succeeds with no invocation. -/
theorem c3_skip_needs_platform_tag (env : TaskEnv) (req : String)
    (hall : ∀ q ∈ List.enumFrom 0 TARGET_PLATFORMS,
      stepSkip env (normalizeReq req) q.2 q.1 = true) :
    (processSingleRequirement env req).1 = (true, none) ∧
    evCount isInvokeEv (processSingleRequirement env req).2 = 0 := by
  have hnf : ∀ q ∈ List.enumFrom 0 TARGET_PLATFORMS,
      stepFatal env (normalizeReq req) q.2 q.1 = false := by
    intro q hq
    rw [stepFatal, hall q hq]
    rfl
  have h := processPlatforms_noFatal env req (normalizeReq req) TARGET_PLATFORMS 0 hnf
  refine ⟨h.1, ?_⟩
  rw [processSingleRequirement]
  rw [h.2.2, List.countP_eq_zero]
  intro q hq
  rw [hall q hq]
  simp

/-- C3 witness: the amended theorem applied to a directory that holds one
matching tagged wheel per platform. -/
theorem c3_skip_needs_platform_tag_witness :
    (∀ q ∈ List.enumFrom 0 TARGET_PLATFORMS,
      stepSkip allTagsEnv (normalizeReq "requests") q.2 q.1 = true) ∧
    ((processSingleRequirement allTagsEnv "requests").1 = (true, none) ∧
     evCount isInvokeEv (processSingleRequirement allTagsEnv "requests").2 = 0) :=
  ⟨by decide, c3_skip_needs_platform_tag allTagsEnv "requests" (by decide)⟩

/-- C4 counterexample: the claim states that after an unmatched fatal failure
no download command is invoked for any remaining requirement.  In this batch
the first task fails fatally (error text `boom`), yet in the valid execution
in which the worker pool had already dispatched the second task before the
collector observed the fatal result, the second (remaining) requirement does
invoke a download. -/
theorem c4_counterexample :
    firstFatal fatalFirstBenv ["alpha", "beta"] = some 0 ∧
    validSchedule fatalFirstBenv ["alpha", "beta"] 2 = true ∧
    (1, Ev.invoke "beta" "win_amd64") ∈ batchTrace fatalFirstBenv ["alpha", "beta"] 2 :=
  ⟨by decide, by decide, by decide⟩

/-- C4 (amended): on a download failure whose error text does not match the
no-binary pattern, the batch halts: the fatal task itself always ran, tasks
never dispatched before the shutdown are cancelled and contribute no event
(in particular they invoke no download command), while requirements already
dispatched to workers may still have run.  -/
theorem c4_halt_and_cancel (benv : BatchEnv) (reqs : List String) (k F : Nat)
    (hF : firstFatal benv reqs = some F) (hk : validSchedule benv reqs k = true) :
    batchHalted benv reqs = true ∧ F < k ∧
    (∀ i, k ≤ i → ∀ e, (i, e) ∉ batchTrace benv reqs k) := by
  refine ⟨?_, ?_, ?_⟩
  · rw [batchHalted, hF]
    rfl
  · rw [validSchedule, hF] at hk
    rw [Bool.and_eq_true] at hk
    exact of_decide_eq_true hk.1
  · intro i hi e hmem
    rw [batchTrace] at hmem
    rcases List.mem_flatMap.1 hmem with ⟨j, hj, hmem2⟩
    rcases List.mem_map.1 hmem2 with ⟨ev, _, heq⟩
    have hji : j = i := congrArg Prod.fst heq
    have hj2 : j < k := List.mem_range.1 hj
    omega

/-- C4 witness: the amended theorem applied to the two-requirement batch with
a fatal first task and the full schedule. -/
theorem c4_halt_and_cancel_witness :
    firstFatal fatalFirstBenv ["alpha", "beta"] = some 0 ∧
    validSchedule fatalFirstBenv ["alpha", "beta"] 2 = true ∧
    (batchHalted fatalFirstBenv ["alpha", "beta"] = true ∧ 0 < 2 ∧
     (∀ i, 2 ≤ i → ∀ e, (i, e) ∉ batchTrace fatalFirstBenv ["alpha", "beta"] 2)) :=
  ⟨by decide, by decide,
    c4_halt_and_cancel fatalFirstBenv ["alpha", "beta"] 2 0 (by decide) (by decide)⟩

/-- C5: per-(requirement, platform) failure handling.  First part: if no
platform iteration is fatal (each download either succeeds, is skipped, or
fails with error text matching the no-binary signature), the task returns
`(True, None)`, all five platforms are iterated, the batch containing this
task is not halted, and every no-binary failure leaves a warning event in the
trace for exactly that (requirement, platform) pair.  Second part: if
platform `j` is the first fatal iteration (non-matching failure), the task
returns `False` with that platform name and stripped error output, iteration
stops after platform `j` (j + 1 directory reads, so later platforms are not
processed), and the collector halts the batch. -/
theorem c5_failure_modes (env : TaskEnv) (req : String) :
    ((∀ q ∈ List.enumFrom 0 TARGET_PLATFORMS,
        stepFatal env (normalizeReq req) q.2 q.1 = false) →
      (processSingleRequirement env req).1 = (true, none) ∧
      evCount isListdirEv (processSingleRequirement env req).2 = TARGET_PLATFORMS.length ∧
      batchHalted ⟨fun _ => env⟩ [req] = false ∧
      (∀ q ∈ List.enumFrom 0 TARGET_PLATFORMS,
        stepWarn env (normalizeReq req) q.2 q.1 = true →
          Ev.warn req q.2.2 ∈ (processSingleRequirement env req).2)) ∧
    (∀ j, j < TARGET_PLATFORMS.length →
      stepFatal env (normalizeReq req) (TARGET_PLATFORMS.getD j ("", "")) j = true →
      (∀ i, i < j → stepFatal env (normalizeReq req) (TARGET_PLATFORMS.getD i ("", "")) i = false) →
      (processSingleRequirement env req).1.1 = false ∧
      (processSingleRequirement env req).1.2 =
        some (req, (TARGET_PLATFORMS.getD j ("", "")).1,
          stripStr (errOf env (TARGET_PLATFORMS.getD j ("", "")).2)) ∧
      evCount isListdirEv (processSingleRequirement env req).2 = j + 1 ∧
      batchHalted ⟨fun _ => env⟩ [req] = true) := by
  constructor
  · intro hnf
    have h := processPlatforms_noFatal env req (normalizeReq req) TARGET_PLATFORMS 0 hnf
    have h11 : (processSingleRequirement env req).1.1 = true := by
      rw [processSingleRequirement, h.1]
    have ht : taskResult ⟨fun _ => env⟩ [req] 0 = processSingleRequirement env req := rfl
    refine ⟨h.1, h.2.1, ?_, ?_⟩
    · rw [batchHalted, firstFatal]
      have hr : List.range ([req] : List String).length = [0] := rfl
      rw [hr]
      simp [List.find?, ht, h11]
    · intro q hq hw
      exact processPlatforms_warnMem env req (normalizeReq req) TARGET_PLATFORMS 0 hnf q hq hw
  · intro j hj hfat hbefore
    have hfat2 : stepFatal env (normalizeReq req) (TARGET_PLATFORMS.getD j ("", "")) (0 + j) = true := by
      rw [Nat.zero_add]
      exact hfat
    have hbefore2 : ∀ i, i < j →
        stepFatal env (normalizeReq req) (TARGET_PLATFORMS.getD i ("", "")) (0 + i) = false := by
      intro i hi
      rw [Nat.zero_add]
      exact hbefore i hi
    have h := processPlatforms_fatal env req (normalizeReq req) TARGET_PLATFORMS 0 j hj hfat2 hbefore2
    have h11 : (processSingleRequirement env req).1.1 = false := h.1
    have ht : taskResult ⟨fun _ => env⟩ [req] 0 = processSingleRequirement env req := rfl
    refine ⟨h.1, h.2.1, h.2.2, ?_⟩
    rw [batchHalted, firstFatal]
    have hr : List.range ([req] : List String).length = [0] := rfl
    rw [hr]
    simp [List.find?, ht, h11]

/-- C5 witness: the first part applied to an environment whose `win32`
download fails with the no-binary signature (warning, batch continues); the
second part applied to an environment whose first download fails with
non-matching error text (fatal at platform 0, batch halted). -/
theorem c5_failure_modes_witness :
    (∀ q ∈ List.enumFrom 0 TARGET_PLATFORMS,
        stepFatal warnEnv (normalizeReq "foo") q.2 q.1 = false) ∧
    ((processSingleRequirement warnEnv "foo").1 = (true, none) ∧
     evCount isListdirEv (processSingleRequirement warnEnv "foo").2 = TARGET_PLATFORMS.length ∧
     batchHalted ⟨fun _ => warnEnv⟩ ["foo"] = false ∧
     (∀ q ∈ List.enumFrom 0 TARGET_PLATFORMS,
       stepWarn warnEnv (normalizeReq "foo") q.2 q.1 = true →
         Ev.warn "foo" q.2.2 ∈ (processSingleRequirement warnEnv "foo").2)) ∧
    (0 < TARGET_PLATFORMS.length ∧
     stepFatal fatalEnv (normalizeReq "bar") (TARGET_PLATFORMS.getD 0 ("", "")) 0 = true ∧
     ((processSingleRequirement fatalEnv "bar").1.1 = false ∧
      (processSingleRequirement fatalEnv "bar").1.2 =
        some ("bar", (TARGET_PLATFORMS.getD 0 ("", "")).1,
          stripStr (errOf fatalEnv (TARGET_PLATFORMS.getD 0 ("", "")).2)) ∧
      evCount isListdirEv (processSingleRequirement fatalEnv "bar").2 = 0 + 1 ∧
      batchHalted ⟨fun _ => fatalEnv⟩ ["bar"] = true)) :=
  ⟨by decide, (c5_failure_modes warnEnv "foo").1 (by decide),
    by decide, by decide,
    (c5_failure_modes fatalEnv "bar").2 0 (by decide) (by decide)
      (fun i hi => absurd hi (Nat.not_lt_zero i))⟩

/-- C9: a requirements-file line that is blank after stripping or that starts
with the comment character contributes nothing: inserting such a line
anywhere in the file leaves the parsed requirement list, the task tuples
(including the total count baked into each tuple) and the batch event trace —
for every environment and schedule — unchanged, so no download command is
ever invoked for it. -/
theorem c9_dropped_lines_produce_no_task (pre post : List String) (e : String)
    (he : droppedLine e = true) :
    parseRequirements (pre ++ e :: post) = parseRequirements (pre ++ post) ∧
    mkTasks (parseRequirements (pre ++ e :: post)) = mkTasks (parseRequirements (pre ++ post)) ∧
    (∀ benv k, batchTrace benv (parseRequirements (pre ++ e :: post)) k =
      batchTrace benv (parseRequirements (pre ++ post)) k) := by
  have hkept : keptLine e = false := by
    rw [keptLine]
    rw [droppedLine] at he
    rw [Bool.or_eq_true] at he
    rcases he with h | h
    · rw [h]
      rfl
    · rw [h]
      simp
  have hfilter : (pre ++ e :: post).filter keptLine = (pre ++ post).filter keptLine := by
    rw [List.filter_append, List.filter_append, List.filter_cons]
    rw [hkept]
    simp
  have hparse : parseRequirements (pre ++ e :: post) = parseRequirements (pre ++ post) := by
    rw [parseRequirements, parseRequirements, hfilter]
  exact ⟨hparse, by rw [hparse], fun benv k => by rw [hparse]⟩

/-- C9 witness: the theorem applied to a comment line inserted between two
requirement lines. -/
theorem c9_dropped_lines_produce_no_task_witness :
    droppedLine "# comment" = true ∧
    (parseRequirements (["numpy==1.0"] ++ "# comment" :: ["pandas"]) =
       parseRequirements (["numpy==1.0"] ++ ["pandas"]) ∧
     mkTasks (parseRequirements (["numpy==1.0"] ++ "# comment" :: ["pandas"])) =
       mkTasks (parseRequirements (["numpy==1.0"] ++ ["pandas"])) ∧
     (∀ benv k, batchTrace benv (parseRequirements (["numpy==1.0"] ++ "# comment" :: ["pandas"])) k =
       batchTrace benv (parseRequirements (["numpy==1.0"] ++ ["pandas"])) k)) :=
  ⟨by decide, c9_dropped_lines_produce_no_task ["numpy==1.0"] ["pandas"] "# comment" (by decide)⟩
